import Mathlib

/-!
Verification of the document layout and heatmap-encoding engine of
`build_pdf_hrna.py`.

The Python source is shallowly embedded: numeric adherence values are
rationals (the threshold comparisons 60/80 are exact, far from any
floating-point boundary effect), a possibly-missing cell value is an
`Option PyVal` where `PyVal` distinguishes a floating-point NaN sentinel
from an ordinary number, strings are Lean strings or, where character-level
reasoning is needed, `List Char`, and reportlab graphics
(`Drawing`/`Rect`/`String` elements) are explicit inert data structures.
-/

/-- A scalar value as it can occur in a numeric field of a pandas row:
either the floating-point not-a-number sentinel or an ordinary number.
A wholly absent field is `none` at the `Option PyVal` level
(Python `row.get(...)` returning `None`). -/
inductive PyVal where
  | nan : PyVal
  | num (q : ℚ) : PyVal
deriving DecidableEq

/-- Hex color `#DC2626` (red) from `pdc_color`. -/
def redHex : String := "#DC2626"

/-- Hex color `#F59E0B` (amber) from `pdc_color`. -/
def amberHex : String := "#F59E0B"

/-- Hex color `#16A34A` (green) from `pdc_color`. -/
def greenHex : String := "#16A34A"

/-- The `colors.white` stroke used between heatmap cells. -/
def whiteHex : String := "white"

/-- Embedding of `pdc_color(pdc)`: `None` and NaN give `None` (blank cell),
otherwise `< 60` red, `< 80` amber, else green. -/
def pdc_color : Option PyVal → Option String
  | none => none
  | some PyVal.nan => none
  | some (PyVal.num q) =>
      if q < 60 then some redHex
      else if q < 80 then some amberHex
      else some greenHex

/-- One element of a reportlab `Drawing`: a `Rect` (x, y, width, height,
fill color, stroke color, stroke width) or a `String` (x, y, text, font size). -/
inductive Elem where
  | rect (x y w h : ℚ) (fillColor strokeColor : String) (strokeWidth : ℚ)
  | txt (x y : ℚ) (text : String) (fontSize : ℚ)
deriving DecidableEq

/-- A reportlab `Drawing(width, height)` together with the elements
added to it, in order. -/
structure Drawing where
  width : ℚ
  height : ℚ
  elems : List Elem
deriving DecidableEq

/-- The per-row padding step of `pdc_heatmap`:
`padded = (values + [None] * cols)[:cols]` with `cols = 3`. -/
def padRow (values : List (Option PyVal)) : List (Option PyVal) :=
  (values ++ List.replicate 3 none).take 3

/-- The grid of cell values consumed by `pdc_heatmap`: one padded
3-slot row per measure row. -/
def heatmapGrid (measure_rows : List (String × List (Option PyVal))) :
    List (List (Option PyVal)) :=
  measure_rows.map (fun m => padRow m.2)

/-- The inner loop of `pdc_heatmap` over one padded row: for column index
`c` and each value, skip blank cells (`pdc_color` is `None`, `continue`),
otherwise add `Rect(c*cell_w, height-(r+1)*cell_h, cell_w, cell_h,
fillColor=color, strokeColor=white, strokeWidth=0.5)`. -/
def cellRects (height cell_w cell_h : ℚ) (r : Nat) : Nat → List (Option PyVal) → List Elem
  | _, [] => []
  | c, v :: vs =>
      match pdc_color v with
      | none => cellRects height cell_w cell_h r (c + 1) vs
      | some color =>
          Elem.rect ((c : ℚ) * cell_w) (height - ((r : ℚ) + 1) * cell_h)
              cell_w cell_h color whiteHex (1/2)
            :: cellRects height cell_w cell_h r (c + 1) vs

/-- The outer loop of `pdc_heatmap`: `for r, (_, values) in
enumerate(measure_rows)`, drawing the padded row at row index `r`. -/
def heatmapRects (height cell_w cell_h : ℚ) : Nat → List (String × List (Option PyVal)) → List Elem
  | _, [] => []
  | r, m :: rest =>
      cellRects height cell_w cell_h r 0 (padRow m.2)
        ++ heatmapRects height cell_w cell_h (r + 1) rest

/-- Embedding of `pdc_heatmap(measure_rows, width=120, height_per_row=18)`:
empty input returns `Drawing(width, height_per_row)`; otherwise a drawing of
height `rows * height_per_row`, with `cell_w = width / 3`, filled by the
two nested loops. -/
def pdc_heatmap (measure_rows : List (String × List (Option PyVal)))
    (width height_per_row : ℚ) : Drawing :=
  if measure_rows = [] then ⟨width, height_per_row, []⟩
  else
    ⟨width, (measure_rows.length : ℚ) * height_per_row,
      heatmapRects ((measure_rows.length : ℚ) * height_per_row)
        (width / 3) height_per_row 0 measure_rows⟩

/-- Decimal digits of a natural number, most significant first, via
repeated division by 10; `fuel` dominates the recursion depth. -/
def toDecAux : Nat → Nat → List Char
  | 0, _ => []
  | fuel + 1, n =>
      if n < 10 then [Nat.digitChar n]
      else toDecAux fuel (n / 10) ++ [Nat.digitChar (n % 10)]

/-- The decimal string of a natural number, as Python `str` produces it
(no leading zeros, `"0"` for zero). -/
def decStr (n : Nat) : List Char := toDecAux (n + 1) n

/-- Python `str(i)` for an integer: a leading `-` for negatives. -/
def pyStr (i : Int) : List Char :=
  if i < 0 then '-' :: decStr (-i).toNat else decStr i.toNat

/-- Python slicing `s[-2:]`: the last two characters, or the whole
string when it is shorter than two characters. -/
def lastTwo (s : List Char) : List Char := s.drop (s.length - 2)

/-- Embedding of `heatmap_year_headers(report_period_year)`:
`[str(y-2)[-2:], str(y-1)[-2:], str(y)[-2:]]`. -/
def heatmap_year_headers (report_period_year : Int) : List (List Char) :=
  let y := report_period_year
  [lastTwo (pyStr (y - 2)), lastTwo (pyStr (y - 1)), lastTwo (pyStr y)]

/-- The two-digit zero-padded label of `n` (intended for `n < 100`),
following the spec side of the period-header contract. -/
def pad2 (n : Nat) : List Char := [Nat.digitChar (n / 10), Nat.digitChar (n % 10)]

/-- The legend item list of `heatmap_legend`: fixed labels and the
fixed bucket colors. -/
def legend_items : List (String × String) :=
  [("< 60", redHex), ("60–79", amberHex), ("≥ 80", greenHex)]

/-- The loop of `heatmap_legend`: starting at `x = 0`, each item adds a
10×10 swatch at `(x, 8)` and its label at `(x+14, 10)`, then `x += 40`. -/
def legendElems : ℚ → List (String × String) → List Elem
  | _, [] => []
  | x, (label, color) :: rest =>
      Elem.rect x 8 10 10 color color 1
        :: Elem.txt (x + 14) 10 label 7
        :: legendElems (x + 40) rest

/-- Embedding of `heatmap_legend(width=120, height=24)`. -/
def heatmap_legend (width height : ℚ) : Drawing :=
  ⟨width, height, legendElems 0 legend_items⟩

/-- One input row (a pandas DataFrame row): the two narrative text fields
read by name in `build_provider_pdf`, and `get`, the `row.get(...)` view
of the numeric measure fields (`none` when the column is absent). -/
structure Record where
  member_detail : String
  adherence_breakdown : String
  get : String → Option PyVal

/-- The fixed `measure_defs` list of `build_measure_rows`:
(display label, field-name prefix) pairs, in source order. -/
def measure_defs : List (String × String) :=
  [("Statin", "Statin"), ("Diabetes", "Diabetes"), ("RAS", "RAS")]

/-- The three period values gathered for one measure definition:
`row.get(f"{prefix}_PDC_Prior_2")`, `..._Prior_1`, `..._Current`. -/
def periodValues (row : Record) (pfx : String) : List (Option PyVal) :=
  [row.get (pfx ++ "_PDC_Prior_2"),
   row.get (pfx ++ "_PDC_Prior_1"),
   row.get (pfx ++ "_PDC_Current")]

/-- The inclusion test of `build_measure_rows`:
`v is not None and not (isinstance(v, float) and math.isnan(v))`. -/
def isPresent : Option PyVal → Bool
  | some (PyVal.num _) => true
  | _ => false

/-- The loop of `build_measure_rows` over a measure-definition list:
gather the three period values and keep the measure iff any value is
present and not NaN. -/
def build_measure_rows_aux : List (String × String) → Record → List (String × List (Option PyVal))
  | [], _ => []
  | (label, pfx) :: rest, row =>
      let values := periodValues row pfx
      if values.any isPresent then (label, values) :: build_measure_rows_aux rest row
      else build_measure_rows_aux rest row

/-- Embedding of `build_measure_rows(row)` with the fixed `measure_defs`. -/
def build_measure_rows (row : Record) : List (String × List (Option PyVal)) :=
  build_measure_rows_aux measure_defs row

/-- A table cell as assembled in `build_provider_pdf`: a `Paragraph` with a
style name, a raw string, or a graphic (`Drawing`) flowable. -/
inductive Cell where
  | par (text style : String)
  | rawText (s : String)
  | graphic (d : Drawing)
deriving DecidableEq

/-- True exactly on graphic (drawing) cells. -/
def isGraphic : Cell → Bool
  | Cell.graphic _ => true
  | _ => false

/-- The header row of `table_data`: three `TableHeader` paragraphs. -/
def header_row : List Cell :=
  [Cell.par "Patient Details" "TableHeader",
   Cell.par "Adherence Breakdown - Failed Measure(s)" "TableHeader",
   Cell.par "PDC History<br/>24&nbsp;&nbsp;25&nbsp;&nbsp;26" "TableHeader"]

/-- Embedding of the `table_data` assembly of `build_provider_pdf`: the
header row, then, for each DataFrame row in order, a body row holding only
the two `TableCell` paragraphs the loop appends. -/
def table_data (rows : List Record) : List (List Cell) :=
  [header_row]
    ++ rows.map (fun row =>
        [Cell.par row.member_detail "TableCell",
         Cell.par row.adherence_breakdown "TableCell"])

/-- Embedding of `col_widths` in `build_provider_pdf`:
`[usable_width * 0.3, usable_width * 0.52]`. -/
def col_widths (usable_width : ℚ) : List ℚ :=
  [usable_width * (3/10), usable_width * (52/100)]

/-- A flowable appended to the `story` list of `build_provider_pdf`. -/
inductive StoryElem where
  | paragraph (text style : String)
  | spacer (w h : ℚ)
  | tableE (data : List (List Cell)) (colWidths : List ℚ)
deriving DecidableEq

/-- The `legend_table` of `build_provider_pdf`: a one-row table
`[["", heatmap_legend()]]` with column widths `[doc.width - 130, 130]`. -/
def legend_table (docWidth : ℚ) : StoryElem :=
  StoryElem.tableE [[Cell.rawText "", Cell.graphic (heatmap_legend 120 24)]]
    [docWidth - 130, 130]

/-- The `story` assembled by `build_provider_pdf`, by successive appends:
header paragraph, `Spacer(1, 12)`, the legend table, `Spacer(1, 6)`, and
the data table. -/
def story (header_text : String) (rows : List Record) (docWidth : ℚ) : List StoryElem :=
  let s0 : List StoryElem := []
  let s1 := s0 ++ [StoryElem.paragraph header_text "HeaderText"]
  let s2 := s1 ++ [StoryElem.spacer 1 12]
  let s3 := s2 ++ [legend_table docWidth]
  let s4 := s3 ++ [StoryElem.spacer 1 6]
  s4 ++ [StoryElem.tableE (table_data rows) (col_widths docWidth)]

/-- Python `\w` word characters (letters, digits, underscore); restricted
to the alphanumeric range — Python additionally counts further Unicode
word characters, which only enlarges the kept set. -/
def isPyWordChar (c : Char) : Bool := c.isAlphanum || c = '_'

/-- The character class `[^\w\-]` of `safe_filename`. -/
def isBadChar (c : Char) : Bool := !(isPyWordChar c || c = '-')

/-- Python `str.strip()`: drop leading and trailing whitespace. -/
def pyStrip (s : List Char) : List Char :=
  ((s.dropWhile Char.isWhitespace).reverse.dropWhile Char.isWhitespace).reverse

/-- `re.sub(r"[^\w\-]+", "_", ...)`: each maximal run of characters in the
class collapses to one underscore; the flag records whether the previous
character was inside such a run. -/
def subBadRuns : Bool → List Char → List Char
  | _, [] => []
  | prevBad, c :: cs =>
      if isBadChar c then
        if prevBad then subBadRuns true cs else '_' :: subBadRuns true cs
      else c :: subBadRuns false cs

/-- Embedding of `safe_filename(value)`: `None` maps to `"UNKNOWN"`,
otherwise strip whitespace and substitute runs of characters outside
`[\w\-]` by `_`. -/
def safe_filename : Option (List Char) → List Char
  | none => "UNKNOWN".data
  | some s => subBadRuns false (pyStrip s)

/-- The first sample record of the script's hardcoded DataFrame (Alice):
the grouped frame has no `*_PDC_*` columns, so `row.get` yields `None`. -/
def aliceRec : Record :=
  ⟨"Member: Alice Smith<br/>DOB: 01/01/1980<br/>Risk Level: High",
   "PDC: 72%<br/>Missed refills in last 60 days.<br/>Intervention recommended.",
   fun _ => none⟩

/-- The second sample record of the script's hardcoded DataFrame (Bob). -/
def bobRec : Record :=
  ⟨"Member: Bob Jones<br/>DOB: 06/12/1975<br/>Risk Level: Medium",
   "PDC: 89%<br/>Consistent fills.<br/>Continue monitoring.",
   fun _ => none⟩

/-- The single record group the script's `groupby` produces from its
sample data. -/
def sample_group : List Record := [aliceRec, bobRec]

/-- A record carrying Statin period values 55, 65, 85 and no other
measure data (the end-to-end scenario of the spec). -/
def statinRec : Record :=
  ⟨"member", "adherence",
   fun k =>
     if k = "Statin_PDC_Prior_2" then some (PyVal.num 55)
     else if k = "Statin_PDC_Prior_1" then some (PyVal.num 65)
     else if k = "Statin_PDC_Current" then some (PyVal.num 85)
     else none⟩

/-- A record whose every measure field is missing. -/
def emptySelRecord : Record := ⟨"member", "adherence", fun _ => none⟩

/-- A one-row measure list used to instantiate the heatmap theorems. -/
def mrStatin : List (String × List (Option PyVal)) :=
  [("Statin", [some (PyVal.num 55), none, some (PyVal.num 85)])]

/-- The number of cell slots in a heatmap grid. -/
def cellCount (g : List (List (Option PyVal))) : Nat := (g.map List.length).sum

/-! ## Helper lemmas -/

theorem padRow_length (vs : List (Option PyVal)) : (padRow vs).length = 3 := by
  simp [padRow]

theorem subBadRuns_chars (b : Bool) (s : List Char) :
    ∀ c ∈ subBadRuns b s, isPyWordChar c = true ∨ c = '-' := by
  induction s generalizing b with
  | nil => intro c hc; simp [subBadRuns] at hc
  | cons a as ih =>
    intro c hc
    by_cases hb : isBadChar a
    · rw [subBadRuns, if_pos hb] at hc
      cases b with
      | true => exact ih true c hc
      | false =>
        rcases List.mem_cons.mp hc with rfl | h
        · exact Or.inl (by decide)
        · exact ih true c h
    · rw [subBadRuns, if_neg hb] at hc
      rcases List.mem_cons.mp hc with rfl | h
      · have h2 : isPyWordChar c = false → c = '-' := by
          simpa [isBadChar] using hb
        rcases Bool.eq_false_or_eq_true (isPyWordChar c) with hw | hw
        · exact Or.inl hw
        · exact Or.inr (h2 hw)
      · exact ih false c h

theorem build_measure_rows_aux_eq_filter (defs : List (String × String)) (row : Record) :
    build_measure_rows_aux defs row
      = (defs.map (fun d => (d.1, periodValues row d.2))).filter
          (fun m => m.2.any isPresent) := by
  induction defs with
  | nil => rfl
  | cons d rest ih =>
    obtain ⟨label, pfx⟩ := d
    by_cases h : (periodValues row pfx).any isPresent
    · simp [build_measure_rows_aux, List.filter_cons, h, ih]
    · simp [build_measure_rows_aux, List.filter_cons, h, ih]

/-! ## Claim theorems -/

/-- C1: the color bucketer sends a missing value (`None` or NaN) to the
blank bucket, every number strictly below 60 to red, every number in
[60, 80) to amber (so 60 itself is amber) and every number at least 80 to
green (so 80 itself is green); it is a total function of its input. -/
theorem pdc_color_buckets (q : ℚ) :
    pdc_color none = none
    ∧ pdc_color (some PyVal.nan) = none
    ∧ (q < 60 → pdc_color (some (PyVal.num q)) = some redHex)
    ∧ (60 ≤ q → q < 80 → pdc_color (some (PyVal.num q)) = some amberHex)
    ∧ (80 ≤ q → pdc_color (some (PyVal.num q)) = some greenHex) := by
  refine ⟨rfl, rfl, ?_, ?_, ?_⟩
  · intro h; simp [pdc_color, h]
  · intro h1 h2
    simp [pdc_color, h2, not_lt.mpr h1]
  · intro h
    have h1 : ¬ q < 60 := by linarith
    have h2 : ¬ q < 80 := by linarith
    simp [pdc_color, h1, h2]

/-- Witness for C1 at the boundary value 60: the lower edge of the amber
bucket is inclusive. -/
theorem pdc_color_buckets_witness :
    pdc_color (some (PyVal.num 60)) = some amberHex :=
  (pdc_color_buckets 60).2.2.2.1 (by norm_num) (by norm_num)

/-- C4: the two column widths `build_provider_pdf` passes to `Table` sum to
`0.82` of the usable width, not to the usable width itself; moreover only 2
widths are supplied for a table whose header row has 3 columns.  Evaluated
at the LETTER usable width 504 pt (612 pt minus two 0.75-inch margins) the
sum is 413.28 pt, a deficit of 90.72 pt well beyond one layout unit. -/
theorem col_widths_sum_deficit :
    (∀ W : ℚ, (col_widths W).sum = (82/100) * W)
    ∧ (col_widths 504).sum = (82/100) * 504
    ∧ (col_widths 504).sum ≠ 504
    ∧ (col_widths 504).length = 2
    ∧ header_row.length = 3 := by
  refine ⟨?_, ?_, ?_, rfl, rfl⟩
  · intro W; simp [col_widths]; ring
  · simp [col_widths]; norm_num
  · simp [col_widths]; norm_num

/-- C8: on the empty measure-row list the heatmap renderer returns a valid
drawing of the configured width whose height is exactly one row height,
with no elements; it is total (never raises). -/
theorem pdc_heatmap_empty_graphic (w hpr : ℚ) :
    (pdc_heatmap [] w hpr).width = w
    ∧ (pdc_heatmap [] w hpr).height = hpr
    ∧ (pdc_heatmap [] w hpr).elems = [] := by
  refine ⟨rfl, rfl, rfl⟩

/-- C10: the filename sanitizer maps the missing input to the literal
string `UNKNOWN`, and every character of any output is a word character
(letter, digit, underscore) or a hyphen — in particular never a space or a
path separator; it is a total function of its input. -/
theorem safe_filename_chars :
    safe_filename none = "UNKNOWN".data
    ∧ ∀ v : List Char, ∀ c ∈ safe_filename (some v),
        isPyWordChar c = true ∨ c = '-' := by
  refine ⟨rfl, ?_⟩
  intro v c hc
  exact subBadRuns_chars false (pyStrip v) c hc

/-- Witness for C10: the space in `"a b"` is replaced, and the replacement
underscore is a word character. -/
theorem safe_filename_chars_witness :
    isPyWordChar '_' = true ∨ '_' = '-' :=
  safe_filename_chars.2 "a b".data '_' (by decide)

/-- C2: contrary to the spec, `build_provider_pdf` never invokes the
measure-row selector or the heatmap renderer: every body row of the data
table it assembles holds exactly the two text paragraphs appended in its
loop and contains no graphic cell at all (so no per-row heatmap grid is
drawn, atomically or otherwise). -/
theorem table_body_rows_no_heatmap (rows : List Record) :
    ∀ r ∈ (table_data rows).drop 1, r.length = 2 ∧ ∀ c ∈ r, isGraphic c = false := by
  intro r hr
  simp only [table_data, List.singleton_append, List.drop_succ_cons, List.drop_zero] at hr
  rcases List.mem_map.mp hr with ⟨row, _, rfl⟩
  refine ⟨rfl, ?_⟩
  intro c hc
  rcases List.mem_cons.mp hc with rfl | hc
  · rfl
  · rcases List.mem_cons.mp hc with rfl | hc
    · rfl
    · exact absurd hc (List.not_mem_nil c)

/-- Witness for C2 on the script's own sample group: the first body row
(Alice's record) has exactly two cells and no graphic. -/
theorem table_body_rows_no_heatmap_witness :
    ([Cell.par aliceRec.member_detail "TableCell",
      Cell.par aliceRec.adherence_breakdown "TableCell"] : List Cell).length = 2 :=
  (table_body_rows_no_heatmap sample_group _
    (by simp [table_data, sample_group])).1

/-- C3 counterexample: for a group whose single record has an empty
measure selection, the legend table is nevertheless an element of the
story `build_provider_pdf` assembles — the legend is not gated on any
row having a non-empty selection, contradicting the claim that such a
group produces a document with no legend. -/
theorem legend_present_without_selections :
    build_measure_rows emptySelRecord = []
    ∧ legend_table 504 ∈ story "narrative" [emptySelRecord] 504 := by
  refine ⟨rfl, ?_⟩
  simp [story]

/-- C3 amended: the builder emits, in fixed order, the narrative
paragraph, a spacer, the right-aligned legend table, a second spacer and
the data table; the legend table is always present, for every record
group and regardless of the records' measure selections. -/
theorem story_order_legend_always (ht : String) (rows : List Record) (W : ℚ) :
    story ht rows W
      = [StoryElem.paragraph ht "HeaderText", StoryElem.spacer 1 12, legend_table W,
         StoryElem.spacer 1 6, StoryElem.tableE (table_data rows) (col_widths W)]
    ∧ legend_table W ∈ story ht rows W := by
  refine ⟨rfl, ?_⟩
  simp [story]

/-- C6: over any ordered measure-definition list, the selector keeps
exactly the measures at least one of whose three gathered period values is
present and not NaN, in the input order (the result is the order-preserving
filter of the gathered rows); every kept row carries all three period
slots; and `build_measure_rows` is this selector applied to the fixed
`measure_defs`.  The function is total: absent fields degrade to `none`. -/
theorem build_measure_rows_filter_spec (defs : List (String × String)) (row : Record) :
    build_measure_rows_aux defs row
      = (defs.map (fun d => (d.1, periodValues row d.2))).filter
          (fun m => m.2.any isPresent)
    ∧ (∀ m ∈ build_measure_rows_aux defs row, m.2.length = 3)
    ∧ build_measure_rows row = build_measure_rows_aux measure_defs row := by
  refine ⟨build_measure_rows_aux_eq_filter defs row, ?_, rfl⟩
  intro m hm
  rw [build_measure_rows_aux_eq_filter] at hm
  rcases List.mem_map.mp (List.mem_filter.mp hm).1 with ⟨d, _, rfl⟩
  rfl

/-- Witness for C6: on the record with Statin values 55/65/85 the Statin
row is selected (with its full three slots). -/
theorem build_measure_rows_filter_witness :
    (("Statin", periodValues statinRec "Statin") : String × List (Option PyVal)).2.length = 3 :=
  (build_measure_rows_filter_spec measure_defs statinRec).2.1 _ (by decide)

theorem toDecAux_fuel_irrel (n : Nat) :
    ∀ f₁ f₂, n < f₁ → n < f₂ → toDecAux f₁ n = toDecAux f₂ n := by
  induction n using Nat.strong_induction_on with
  | _ n ih =>
    intro f₁ f₂ h₁ h₂
    cases f₁ with
    | zero => omega
    | succ g₁ =>
      cases f₂ with
      | zero => omega
      | succ g₂ =>
        simp only [toDecAux]
        by_cases h10 : n < 10
        · simp [h10]
        · rw [if_neg h10, if_neg h10]
          have hd : n / 10 < n := Nat.div_lt_self (by omega) (by omega)
          rw [ih (n / 10) hd g₁ g₂ (by omega) (by omega)]

theorem decStr_lt10 (n : Nat) (h : n < 10) : decStr n = [Nat.digitChar n] := by
  simp [decStr, toDecAux, h]

theorem decStr_ge10 (n : Nat) (h : 10 ≤ n) :
    decStr n = decStr (n / 10) ++ [Nat.digitChar (n % 10)] := by
  have h10 : ¬ n < 10 := by omega
  have hd : n / 10 < n := Nat.div_lt_self (by omega) (by omega)
  show toDecAux (n + 1) n = toDecAux (n / 10 + 1) (n / 10) ++ [Nat.digitChar (n % 10)]
  rw [toDecAux, if_neg h10,
    toDecAux_fuel_irrel (n / 10) n (n / 10 + 1) hd (by omega)]

theorem lastTwo_append_pair (B : List Char) (x y : Char) :
    lastTwo (B ++ [x, y]) = [x, y] := by
  unfold lastTwo
  have hl : (B ++ [x, y]).length - 2 = B.length := by simp
  rw [hl]
  exact List.drop_left B [x, y]

theorem lastTwo_decStr (n : Nat) (h : 10 ≤ n) :
    lastTwo (decStr n) = [Nat.digitChar (n / 10 % 10), Nat.digitChar (n % 10)] := by
  rw [decStr_ge10 n h]
  by_cases h2 : n / 10 < 10
  · rw [decStr_lt10 _ h2, Nat.mod_eq_of_lt h2]
    exact lastTwo_append_pair [] _ _
  · rw [decStr_ge10 (n / 10) (by omega), List.append_assoc]
    exact lastTwo_append_pair _ _ _

theorem lastTwo_pyStr_pad2 (i : Int) (h : 10 ≤ i) :
    lastTwo (pyStr i) = pad2 (i.toNat % 100) := by
  have hnn : ¬ i < 0 := by omega
  rw [pyStr, if_neg hnn, lastTwo_decStr i.toNat (by omega)]
  unfold pad2
  have e1 : i.toNat / 10 % 10 = i.toNat % 100 / 10 := by omega
  have e2 : i.toNat % 10 = i.toNat % 100 % 10 := by omega
  rw [e1, e2]

/-- C5 counterexample: for the year 5 the period-header formatter returns
the one-character labels `3`, `4`, `5` — the last characters of the
decimal strings — and not the zero-padded modulo-100 labels `03`, `04`,
`05` the claim demands for every integer year. -/
theorem year_headers_not_padded_small_year :
    heatmap_year_headers 5 = [['3'], ['4'], ['5']]
    ∧ heatmap_year_headers 5 ≠ [pad2 (3 % 100), pad2 (4 % 100), pad2 (5 % 100)] := by
  constructor
  · decide
  · decide

/-- C5 amended: the formatter is total over the integers and returns the
last two characters of the three decimal year strings; for every year
`y ≥ 12` (so that each of the three years has at least two decimal digits
— in particular for all calendar years, including 2000 and 2026) these are
exactly the zero-padded modulo-100 labels of `y-2`, `y-1`, `y`, in that
order.  For smaller years the labels are unpadded. -/
theorem year_headers_mod100_of_ge12 (y : Int) (h : 12 ≤ y) :
    heatmap_year_headers y
      = [pad2 ((y - 2).toNat % 100), pad2 ((y - 1).toNat % 100), pad2 (y.toNat % 100)] := by
  show [lastTwo (pyStr (y - 2)), lastTwo (pyStr (y - 1)), lastTwo (pyStr y)] = _
  rw [lastTwo_pyStr_pad2 (y - 2) (by omega), lastTwo_pyStr_pad2 (y - 1) (by omega),
    lastTwo_pyStr_pad2 y (by omega)]

/-- Witness for C5 amended at the year 2026 of the spec's example:
the labels are the modulo-100 two-digit labels of 2024, 2025, 2026. -/
theorem year_headers_mod100_witness :
    heatmap_year_headers 2026
      = [pad2 (((2026 : Int) - 2).toNat % 100), pad2 (((2026 : Int) - 1).toNat % 100),
         pad2 ((2026 : Int).toNat % 100)] :=
  year_headers_mod100_of_ge12 2026 (by norm_num)

theorem cellRects_length (H cw ch : ℚ) (r : Nat) :
    ∀ (vs : List (Option PyVal)) (c : Nat),
      (cellRects H cw ch r c vs).length
        = (vs.filter (fun v => (pdc_color v).isSome)).length := by
  intro vs
  induction vs with
  | nil => intro c; rfl
  | cons v t ih =>
    intro c
    simp only [cellRects]
    cases hv : pdc_color v
    · simp [hv, List.filter_cons, ih]
    · simp [hv, List.filter_cons, ih]

theorem heatmapRects_length (H cw ch : ℚ) :
    ∀ (mr : List (String × List (Option PyVal))) (r : Nat),
      (heatmapRects H cw ch r mr).length
        = ((heatmapGrid mr).flatten.filter (fun v => (pdc_color v).isSome)).length := by
  intro mr
  induction mr with
  | nil => intro r; rfl
  | cons m t ih =>
    intro r
    simp only [heatmapGrid] at ih
    simp only [heatmapRects, heatmapGrid, List.map_cons, List.flatten_cons,
      List.filter_append, List.length_append]
    rw [cellRects_length, ih]

theorem cellRects_mem (H cw ch : ℚ) (r : Nat) :
    ∀ (vs : List (Option PyVal)) (c : Nat) (e : Elem), e ∈ cellRects H cw ch r c vs →
      ∃ v ∈ vs, ∃ x y wd ht fc sc sw,
        e = Elem.rect x y wd ht fc sc sw ∧ pdc_color v = some fc := by
  intro vs
  induction vs with
  | nil => intro c e he; simp [cellRects] at he
  | cons v t ih =>
    intro c e he
    simp only [cellRects] at he
    cases hv : pdc_color v with
    | none =>
      rw [hv] at he
      obtain ⟨v', hv', rest⟩ := ih (c + 1) e he
      exact ⟨v', List.mem_cons_of_mem _ hv', rest⟩
    | some color =>
      rw [hv] at he
      rcases List.mem_cons.mp he with rfl | hrest
      · exact ⟨v, List.mem_cons_self v t, (c : ℚ) * cw, H - ((r : ℚ) + 1) * ch,
          cw, ch, color, whiteHex, 1/2, rfl, hv⟩
      · obtain ⟨v', hv', rest⟩ := ih (c + 1) e hrest
        exact ⟨v', List.mem_cons_of_mem _ hv', rest⟩

theorem heatmapRects_mem (H cw ch : ℚ) :
    ∀ (mr : List (String × List (Option PyVal))) (r : Nat) (e : Elem),
      e ∈ heatmapRects H cw ch r mr →
      ∃ v ∈ (heatmapGrid mr).flatten, ∃ x y wd ht fc sc sw,
        e = Elem.rect x y wd ht fc sc sw ∧ pdc_color v = some fc := by
  intro mr
  induction mr with
  | nil => intro r e he; simp [heatmapRects] at he
  | cons m t ih =>
    intro r e he
    simp only [heatmapRects] at he
    rcases List.mem_append.mp he with h1 | h2
    · obtain ⟨v, hv, rest⟩ := cellRects_mem H cw ch r (padRow m.2) 0 e h1
      refine ⟨v, ?_, rest⟩
      simp only [heatmapGrid, List.map_cons, List.flatten_cons]
      exact List.mem_append_left _ hv
    · obtain ⟨v, hv, rest⟩ := ih (r + 1) e h2
      refine ⟨v, ?_, rest⟩
      simp only [heatmapGrid] at hv
      simp only [heatmapGrid, List.map_cons, List.flatten_cons]
      exact List.mem_append_right _ hv

/-- C7: for a non-empty measure-row list the heatmap grid has exactly one
padded row per measure row and every padded row has exactly 3 slots, so
the slot count is `len(measureRows) × 3`; a measure supplying fewer than 3
values is padded with the missing marker on the right, one supplying more
is truncated to its first 3; and the drawing's height is `rows` times the
per-row height. -/
theorem heatmap_grid_shape (mr : List (String × List (Option PyVal))) (w hpr : ℚ)
    (h : mr ≠ []) :
    (heatmapGrid mr).length = mr.length
    ∧ (∀ row ∈ heatmapGrid mr, row.length = 3)
    ∧ (∀ vs : List (Option PyVal), vs.length ≤ 3 →
        padRow vs = vs ++ List.replicate (3 - vs.length) none)
    ∧ (∀ vs : List (Option PyVal), 3 ≤ vs.length → padRow vs = vs.take 3)
    ∧ cellCount (heatmapGrid mr) = mr.length * 3
    ∧ (pdc_heatmap mr w hpr).height = (mr.length : ℚ) * hpr := by
  refine ⟨by simp [heatmapGrid], ?_, ?_, ?_, ?_, ?_⟩
  · intro row hrow
    rcases List.mem_map.mp hrow with ⟨m, _, rfl⟩
    exact padRow_length m.2
  · intro vs hvs
    unfold padRow
    rw [List.take_append_eq_append_take, List.take_of_length_le hvs, List.take_replicate]
    have hmin : min (3 - vs.length) 3 = 3 - vs.length := min_eq_left (by omega)
    rw [hmin]
  · intro vs hvs
    exact List.take_append_of_le_length hvs
  · have aux : ∀ l : List (String × List (Option PyVal)),
        ((l.map (fun m => padRow m.2)).map List.length).sum = l.length * 3 := by
      intro l
      induction l with
      | nil => rfl
      | cons a t ih =>
        simp only [List.map_cons, List.sum_cons, List.length_cons, padRow_length, ih]
        ring
    exact aux mr
  · simp [pdc_heatmap, h]

/-- Witness for C7 on a one-measure row list. -/
theorem heatmap_grid_shape_witness :
    (heatmapGrid mrStatin).length = mrStatin.length
    ∧ (pdc_heatmap mrStatin 120 18).height = (mrStatin.length : ℚ) * 18 := by
  have h := heatmap_grid_shape mrStatin 120 18 (by decide)
  exact ⟨h.1, h.2.2.2.2.2⟩

/-- C9: every element the heatmap renderer draws is a filled rectangle
whose fill color is the color bucket of one of the grid's cell values, and
the number of rectangles equals the number of grid cells whose bucket is
not `NONE` — so a `NONE` cell draws nothing at all (no gray placeholder)
and every non-`NONE` cell contributes exactly one rectangle. -/
theorem heatmap_cells_colored_iff (mr : List (String × List (Option PyVal))) (w hpr : ℚ) :
    (pdc_heatmap mr w hpr).elems.length
      = ((heatmapGrid mr).flatten.filter (fun v => (pdc_color v).isSome)).length
    ∧ ∀ e ∈ (pdc_heatmap mr w hpr).elems,
        ∃ v ∈ (heatmapGrid mr).flatten, ∃ x y wd ht fc sc sw,
          e = Elem.rect x y wd ht fc sc sw ∧ pdc_color v = some fc := by
  by_cases hmr : mr = []
  · subst hmr
    exact ⟨rfl, by intro e he; simp [pdc_heatmap] at he⟩
  · constructor
    · have : (pdc_heatmap mr w hpr).elems
          = heatmapRects ((mr.length : ℚ) * hpr) (w / 3) hpr 0 mr := by
        simp [pdc_heatmap, hmr]
      rw [this]
      exact heatmapRects_length _ _ _ mr 0
    · intro e he
      have he' : e ∈ heatmapRects ((mr.length : ℚ) * hpr) (w / 3) hpr 0 mr := by
        simpa [pdc_heatmap, hmr] using he
      exact heatmapRects_mem _ _ _ mr 0 e he'

/-- Witness for C9: the first cell of the Statin row (value 55) yields a
red rectangle at the top-left of the grid. -/
theorem heatmap_cells_colored_witness :
    ∃ v ∈ (heatmapGrid mrStatin).flatten, ∃ x y wd ht fc sc sw,
      Elem.rect 0 0 40 18 redHex whiteHex (1/2) = Elem.rect x y wd ht fc sc sw
      ∧ pdc_color v = some fc :=
  (heatmap_cells_colored_iff mrStatin 120 18).2 _ (by
    have hne : mrStatin ≠ [] := by simp [mrStatin]
    have helems : (pdc_heatmap mrStatin 120 18).elems
        = [Elem.rect 0 0 40 18 redHex whiteHex (1/2),
           Elem.rect 80 0 40 18 greenHex whiteHex (1/2)] := by
      simp only [pdc_heatmap, if_neg hne]
      norm_num [mrStatin, heatmapRects, cellRects, padRow, pdc_color]
    rw [helems]
    exact List.mem_cons_self _ _)
